import Mathlib

/-!
# A verification development for the `ui` widget layer

Shallow embedding of `ui/widget.go` (package `ui`): the panel, label and
button widgets, their input handling and their drawing calls.

Modelling conventions.

* Go's `int` is a 64-bit two's-complement integer.  Coordinates are `Int`
  values, meant to lie in `[-2^63, 2^63)`; every arithmetic result is reduced
  to that range with `wrapInt`.
* `image.Pt`, `image.Rect`, `Rectangle.Dx`, `Rectangle.Dy` and `Point.In` follow
  Go's standard package `image`.
* The interface `Widget` is closed to its three implementations in the
  package: `Panel`, `Label` and `Button`.
* The engine's input queries (`ebiten.CursorPosition`,
  `ebiten.IsMouseButtonPressed`, `inpututil.IsMouseButtonJustPressed`,
  `inpututil.IsMouseButtonJustReleased`) are read from an explicit `Input`
  record that is constant during one poll.
* A widget method that mutates its receiver returns the updated receiver.
* `Widget` and `Panel` are trees of values: they model a panel whose children
  are distinct objects.  The code holds its children by reference, so one
  object can sit in several slots; `Panel.handleRefs` is the loop of
  `Panel.HandleInput` over children held by reference, each child's
  `HandleInput` acting on the whole program state, and `Heap` is a program
  state that holds one widget at each address.
* A click callback is user code.  It is identified by a number and each of
  its invocations is recorded, in order, as an `Event.click`.
* Drawing calls made on the screen are recorded, in order, as `DrawOp`s.
  A `float64` argument converted from an `int` is recorded by its value, which
  is an integer: `float64` rounds the `int` to 53 significant bits.
-/

namespace ui

/-! ## Machine integers -/

/-- Reduction of an integer to the 64-bit two's-complement range of Go's `int`. -/
def wrapInt (n : Int) : Int :=
  (n + 2 ^ 63) % 2 ^ 64 - 2 ^ 63

/-! ## Geometry (`image.Point`, `image.Rectangle`) -/

/-- Go's `image.Point`. -/
structure Point where
  X : Int
  Y : Int
  deriving DecidableEq, Repr

/-- Go's `image.Rectangle`. -/
structure Rectangle where
  Min : Point
  Max : Point
  deriving DecidableEq, Repr

/-- Go's `image.Pt`. -/
def Pt (x y : Int) : Point :=
  { X := x, Y := y }

/-- Go's `image.Rect`: the rectangle with the given corners, the coordinates
swapped where needed so that `Min` is not greater than `Max`. -/
def Rect (x0 y0 x1 y1 : Int) : Rectangle :=
  let (x0, x1) := if x0 > x1 then (x1, x0) else (x0, x1)
  let (y0, y1) := if y0 > y1 then (y1, y0) else (y0, y1)
  { Min := { X := x0, Y := y0 }, Max := { X := x1, Y := y1 } }

/-- Go's `Rectangle.Dx`: the width `r.Max.X - r.Min.X`. -/
def Rectangle.Dx (r : Rectangle) : Int :=
  wrapInt (r.Max.X - r.Min.X)

/-- Go's `Rectangle.Dy`: the height `r.Max.Y - r.Min.Y`. -/
def Rectangle.Dy (r : Rectangle) : Int :=
  wrapInt (r.Max.Y - r.Min.Y)

/-- Go's `Point.In`: membership in the half-open rectangle. -/
def Point.In (p : Point) (r : Rectangle) : Bool :=
  decide (r.Min.X ≤ p.X) && decide (p.X < r.Max.X) &&
    decide (r.Min.Y ≤ p.Y) && decide (p.Y < r.Max.Y)

/-- The function `absRegion` of `widget.go`. -/
def absRegion (rel region : Rectangle) : Rectangle :=
  let x := wrapInt (region.Min.X + rel.Min.X)
  let y := wrapInt (region.Min.Y + rel.Min.Y)
  Rect x y (wrapInt (x + rel.Dx)) (wrapInt (y + rel.Dy))

/-! ## The engine's input state during one poll -/

/-- The engine's answers to the four input queries made by `Button.HandleInput`. -/
structure Input where
  /-- The result of `ebiten.CursorPosition()`. -/
  cursor : Point
  /-- The result of `ebiten.IsMouseButtonPressed(ebiten.MouseButtonLeft)`. -/
  held : Bool
  /-- The result of `inpututil.IsMouseButtonJustPressed(ebiten.MouseButtonLeft)`. -/
  justPressed : Bool
  /-- The result of `inpututil.IsMouseButtonJustReleased(ebiten.MouseButtonLeft)`. -/
  justReleased : Bool
  deriving DecidableEq, Repr

/-- An observable side effect of input handling: a call of the click callback
with the given identity. -/
inductive Event where
  | click (callback : Nat)
  deriving DecidableEq, Repr

/-! ## Button -/

/-- The struct `Button` of `widget.go`.  `OnClick` is `none` for a nil callback. -/
structure Button where
  Region : Rectangle
  Text : String
  OnClick : Option Nat
  pressed : Bool
  deriving DecidableEq, Repr

/-- The outcome of one call of a `HandleInput` method on a receiver of type `α`:
the returned boolean, the receiver afterwards, and the callbacks invoked. -/
structure Poll (α : Type) where
  consumed : Bool
  self : α
  events : List Event
  deriving Repr

/-- The method `Button.HandleInput` of `widget.go`. -/
def Button.HandleInput (inp : Input) (b : Button) (region : Rectangle) : Poll Button :=
  let r := absRegion b.Region region
  if !(inp.cursor.In r) then
    { consumed := false, self := { b with pressed := false }, events := [] }
  else if b.pressed then
    if inp.held then
      { consumed := true, self := b, events := [] }
    else if !inp.justReleased then
      { consumed := true, self := b, events := [] }
    else
      let events := match b.OnClick with
        | some f => [Event.click f]
        | none => []
      { consumed := true, self := { b with pressed := false }, events := events }
  else if inp.justPressed then
    { consumed := true, self := { b with pressed := true }, events := [] }
  else
    { consumed := true, self := b, events := [] }

/-! ## Label -/

/-- Modelled from the spec: the type `HorizontalAlign`, declared outside
`widget.go`; the spec names its values start, center and end. -/
inductive HorizontalAlign where
  | Start
  | Center
  | End
  deriving DecidableEq, Repr

/-- Modelled from the spec: the type `VerticalAlign`, declared outside
`widget.go`; the spec names its values start, middle and end. -/
inductive VerticalAlign where
  | Start
  | Middle
  | End
  deriving DecidableEq, Repr

/-- The struct `Label` of `widget.go`. -/
structure Label where
  Region : Rectangle
  Text : String
  HorizontalAlign : HorizontalAlign
  VerticalAlign : VerticalAlign
  deriving DecidableEq, Repr

/-- The method `Label.HandleInput` of `widget.go`. -/
def Label.HandleInput (_inp : Input) (l : Label) (_region : Rectangle) : Poll Label :=
  { consumed := false, self := l, events := [] }

/-! ## Widgets and panels -/

/-- A non-nil `color.Color`, by its components. -/
structure Color where
  R : Nat
  G : Nat
  B : Nat
  A : Nat
  deriving DecidableEq, Repr

mutual
/-- The implementations of the interface `Widget` in `widget.go`. -/
inductive Widget where
  | panel (p : Panel)
  | label (l : Label)
  | button (b : Button)
/-- The struct `Panel` of `widget.go`.  `BackgroundColor` is `none` for a nil color. -/
inductive Panel where
  | mk (Children : List Widget) (BackgroundColor : Option Color)
end

/-- The field `Children` of a panel. -/
def Panel.Children : Panel → List Widget
  | .mk cs _ => cs

/-- The field `BackgroundColor` of a panel. -/
def Panel.BackgroundColor : Panel → Option Color
  | .mk _ bg => bg

mutual
/-- Dispatch of the interface method `Widget.HandleInput`. -/
def Widget.HandleInput (inp : Input) : Widget → Rectangle → Poll Widget
  | .panel p, region =>
    let r := Panel.HandleInput inp p region
    { consumed := r.consumed, self := .panel r.self, events := r.events }
  | .label l, region =>
    let r := Label.HandleInput inp l region
    { consumed := r.consumed, self := .label r.self, events := r.events }
  | .button b, region =>
    let r := Button.HandleInput inp b region
    { consumed := r.consumed, self := .button r.self, events := r.events }
/-- The method `Panel.HandleInput` of `widget.go`. -/
def Panel.HandleInput (inp : Input) : Panel → Rectangle → Poll Panel
  | .mk cs bg, region =>
    let r := Panel.handleChildren inp cs region
    { consumed := r.consumed, self := .mk r.self bg, events := r.events }
/-- The body of `Panel.HandleInput`: the loop over the remaining children and
the `return true` after it. -/
def Panel.handleChildren (inp : Input) : List Widget → Rectangle → Poll (List Widget)
  | [], _ => { consumed := true, self := [], events := [] }
  | c :: cs, region =>
    let r := Widget.HandleInput inp c region
    if r.consumed then
      { consumed := true, self := r.self :: cs, events := r.events }
    else
      let rest := Panel.handleChildren inp cs region
      { consumed := rest.consumed, self := r.self :: rest.self,
        events := r.events ++ rest.events }
end

/-! ## Drawing -/

/-- The number of low bits that `float64` drops from the magnitude `m`: the
least `e` with `m / 2^e < 2^53`, searched up to the given bound. -/
def float64Shift (m : Nat) : Nat → Nat
  | 0 => 0
  | bound + 1 => if m < 2 ^ 53 then 0 else float64Shift (m / 2) bound + 1

/-- Go's conversion `float64(n)` of an `int`, by its value: `n` rounded to the
nearest number with 53 significant bits, a tie going to the even one. -/
def float64 (n : Int) : Int :=
  let m := n.natAbs
  let e := float64Shift m 64
  let q := m / 2 ^ e
  let r := m % 2 ^ e
  let up := decide (2 ^ e < 2 * r) || (decide (2 * r = 2 ^ e) && decide (q % 2 = 1))
  let v := (if up then q + 1 else q) * 2 ^ e
  if n < 0 then -(v : Int) else (v : Int)

/-- A call on the screen.  The arguments of `drawRect` are the values of the
`float64` arguments of the call. -/
inductive DrawOp where
  /-- The call `ebitenutil.DrawRect(screen, x, y, w, h, clr)`. -/
  | drawRect (x y w h : Int) (clr : Color)
  /-- The call `drawNinePatch(screen, tmpButtonImage, r)`. -/
  | drawNinePatch (r : Rectangle)
  /-- The call `text.Draw(screen, s, bitmapfont.Gothic12r, x, y, color.Black)`. -/
  | drawText (s : String) (x y : Int)
  deriving DecidableEq, Repr

/-- The type of the function `textAt`, which is declared outside `widget.go`
and is a parameter of the drawing functions. -/
abbrev TextAt : Type :=
  String → Rectangle → HorizontalAlign → VerticalAlign → Int × Int

/-- The method `Label.Draw` of `widget.go`. -/
def Label.Draw (textAt : TextAt) (l : Label) (region : Rectangle) : List DrawOp :=
  let r := absRegion l.Region region
  let (x, y) := textAt l.Text r l.HorizontalAlign l.VerticalAlign
  [DrawOp.drawText l.Text x y]

/-- The method `Button.Draw` of `widget.go`. -/
def Button.Draw (textAt : TextAt) (b : Button) (region : Rectangle) : List DrawOp :=
  let r := absRegion b.Region region
  let (x, y) := textAt b.Text r HorizontalAlign.Center VerticalAlign.Middle
  [DrawOp.drawNinePatch r, DrawOp.drawText b.Text x y]

/-- The background rectangle drawn by `Panel.Draw` when `BackgroundColor` is
not nil. -/
def Panel.drawBackground (bg : Option Color) (region : Rectangle) : List DrawOp :=
  match bg with
  | some clr =>
    [DrawOp.drawRect (float64 region.Min.X) (float64 region.Min.Y) (float64 region.Dx)
      (float64 region.Dy) clr]
  | none => []

mutual
/-- Dispatch of the interface method `Widget.Draw`: the calls made on the screen. -/
def Widget.Draw (textAt : TextAt) : Widget → Rectangle → List DrawOp
  | .panel p, region => Panel.Draw textAt p region
  | .label l, region => Label.Draw textAt l region
  | .button b, region => Button.Draw textAt b region
/-- The method `Panel.Draw` of `widget.go`: the calls made on the screen. -/
def Panel.Draw (textAt : TextAt) : Panel → Rectangle → List DrawOp
  | .mk cs bg, region =>
    if region.Dx = 0 ∨ region.Dy = 0 then
      []
    else
      Panel.drawBackground bg region ++ Panel.drawChildren textAt cs region
/-- The loop over the children in `Panel.Draw`. -/
def Panel.drawChildren (textAt : TextAt) : List Widget → Rectangle → List DrawOp
  | [], _ => []
  | c :: cs, region => Widget.Draw textAt c region ++ Panel.drawChildren textAt cs region
end

/-- A call made directly by the body of `Panel.Draw`.  The arguments of
`drawRect` are the values of the `float64` arguments of the call. -/
inductive PanelCall where
  /-- The call `ebitenutil.DrawRect(screen, x, y, w, h, clr)`. -/
  | drawRect (x y w h : Int) (clr : Color)
  /-- The call `c.Draw(screen, region)` on a child. -/
  | childDraw (c : Widget) (region : Rectangle)

/-- The calls `c.Draw(screen, region)` of the loop in `Panel.Draw`. -/
def Panel.childCalls : List Widget → Rectangle → List PanelCall
  | [], _ => []
  | c :: cs, region => PanelCall.childDraw c region :: Panel.childCalls cs region

/-- The method `Panel.Draw` of `widget.go`: the calls its body makes, in order. -/
def Panel.DrawCalls : Panel → Rectangle → List PanelCall
  | .mk cs bg, region =>
    if region.Dx = 0 ∨ region.Dy = 0 then
      []
    else
      (match bg with
        | some clr =>
          [PanelCall.drawRect (float64 region.Min.X) (float64 region.Min.Y)
            (float64 region.Dx) (float64 region.Dy) clr]
        | none => []) ++ Panel.childCalls cs region

/-! ## The button texture -/

/-- The body of the inner loop of `init`: the four stores for pixel `(i, j)`
and the increment of `idx`. -/
def initPixel (j i : Nat) (st : List Nat × Nat) : List Nat × Nat :=
  let (pix, idx) := st
  if i = 0 ∨ i = 15 ∨ j = 0 ∨ j = 15 then
    ((((pix.set idx 0x33).set (idx + 1) 0x33).set (idx + 2) 0x33).set (idx + 3) 0xff,
      idx + 4)
  else
    ((((pix.set idx 0xcc).set (idx + 1) 0xcc).set (idx + 2) 0xcc).set (idx + 3) 0xff,
      idx + 4)

/-- The inner loop of `init`: `for i := 0; i < 16; i++`. -/
def initRow (j : Nat) (st : List Nat × Nat) : List Nat × Nat :=
  (List.range 16).foldl (fun st i => initPixel j i st) st

/-- The pixel buffer `pix` that `init` passes to `ReplacePixels`: a zeroed
slice of `4*16*16` bytes filled by the two nested loops. -/
def initPix : List Nat :=
  ((List.range 16).foldl (fun st j => initRow j st) (List.replicate (4 * 16 * 16) 0, 0)).1

/-! ## The button state machine of the specification -/

/-- The two states of a button in the specification's transition table. -/
inductive ButtonState where
  | idle
  | pressed
  deriving DecidableEq, Repr

/-- The state of the specification's state machine that a button is in. -/
def Button.state (b : Button) : ButtonState :=
  if b.pressed then ButtonState.pressed else ButtonState.idle

/-- The specification's transition table for one poll, row by row: `inside`
says whether the pointer is inside the absolute region, the other flags are the
engine's held, just-pressed and just-released answers. -/
def specNext (s : ButtonState) (inside held justPressed justReleased : Bool) :
    ButtonState :=
  match s, inside with
  | ButtonState.idle, false => ButtonState.idle
  | ButtonState.idle, true =>
    if justPressed then ButtonState.pressed else ButtonState.idle
  | ButtonState.pressed, false => ButtonState.idle
  | ButtonState.pressed, true =>
    if held then ButtonState.pressed
    else if justReleased then ButtonState.idle
    else ButtonState.pressed

/-- Successive polls of one button against the same container region, one
engine input state per poll: the button after the last poll and the callbacks
invoked, in order. -/
def Button.pollAll (b : Button) (region : Rectangle) : List Input → Button × List Event
  | [] => (b, [])
  | inp :: rest =>
    let r := Button.HandleInput inp b region
    let r2 := Button.pollAll r.self region rest
    (r2.1, r.events ++ r2.2)

/-- A point lies strictly inside a rectangle: off every edge, on the inner side. -/
def Point.StrictlyIn (p : Point) (r : Rectangle) : Prop :=
  r.Min.X < p.X ∧ p.X < r.Max.X ∧ r.Min.Y < p.Y ∧ p.Y < r.Max.Y

/-- A point lies strictly outside a rectangle: beyond one of its edges. -/
def Point.StrictlyOut (p : Point) (r : Rectangle) : Prop :=
  p.X < r.Min.X ∨ r.Max.X < p.X ∨ p.Y < r.Min.Y ∨ r.Max.Y < p.Y

instance (p : Point) (r : Rectangle) : Decidable (p.StrictlyIn r) := by
  unfold Point.StrictlyIn
  infer_instance

instance (p : Point) (r : Rectangle) : Decidable (p.StrictlyOut r) := by
  unfold Point.StrictlyOut
  infer_instance

/-! ## Sample data -/

/-- A container region with origin `(20, 30)` and size `100 x 100`. -/
def sampleRegion : Rectangle :=
  Rect 20 30 120 130

/-- An idle button with a callback, at `(0, 0)`-`(10, 10)` in its container. -/
def sampleButton : Button :=
  { Region := Rect 0 0 10 10, Text := "ok", OnClick := some 7, pressed := false }

/-- The sample button in the pressed state. -/
def samplePressedButton : Button :=
  { sampleButton with pressed := true }

/-- An input state: pointer inside the sample button, mouse button just pressed
and held. -/
def samplePress : Input :=
  { cursor := Pt 25 35, held := true, justPressed := true, justReleased := false }

/-- An input state: pointer inside the sample button, mouse button just released. -/
def sampleRelease : Input :=
  { cursor := Pt 26 36, held := false, justPressed := false, justReleased := true }

/-- An input state: pointer outside the sample button, mouse button still held. -/
def sampleLeave : Input :=
  { cursor := Pt 60 35, held := true, justPressed := false, justReleased := false }

/-- An input state: pointer inside the sample button, mouse button neither held
nor just pressed nor just released. -/
def sampleHover : Input :=
  { cursor := Pt 25 35, held := false, justPressed := false, justReleased := false }

/-- A label at `(0, 20)`-`(50, 32)` in its container. -/
def sampleLabel : Label :=
  { Region := Rect 0 20 50 32, Text := "name", HorizontalAlign := HorizontalAlign.End,
    VerticalAlign := VerticalAlign.Middle }

/-- A panel with a white background holding the sample button and the sample label. -/
def samplePanel : Panel :=
  Panel.mk [Widget.button sampleButton, Widget.label sampleLabel]
    (some { R := 255, G := 255, B := 255, A := 255 })

/-- A region of zero width and non-zero height. -/
def sampleEmptyRegion : Rectangle :=
  Rect 5 5 5 50

/-- A stand-in for `textAt` that anchors every text at the region's `Min` corner. -/
def sampleTextAt : TextAt :=
  fun _ r _ _ => (r.Min.X, r.Min.Y)

/-! ## The button texture of the specification -/

/-- The four bytes that the specification gives pixel `(i, j)` of the 16x16
source pattern: the dark color on the one-pixel border, the light color in the
interior. -/
def specPixel (i j : Nat) : List Nat :=
  if i = 0 ∨ i = 15 ∨ j = 0 ∨ j = 15 then [0x33, 0x33, 0x33, 0xff]
  else [0xcc, 0xcc, 0xcc, 0xff]

/-- The loop state `(pix, idx)` of `init` once `k` pixels have been written in
row-major order: the first `k` pixels as the specification gives them, the rest
of the buffer still zero. -/
def pixAfter (k : Nat) : List Nat × Nat :=
  ((List.range k).flatMap (fun m => specPixel (m % 16) (m / 16)) ++
    List.replicate (4 * 16 * 16 - 4 * k) 0, 4 * k)

/-! ## Panel polling -/

/-- The calls `c.HandleInput(region)` made by the loop of `Panel.HandleInput`,
in order: each one with the child as it is before the call and the region it is
given. -/
def Panel.inputCalls (inp : Input) : List Widget → Rectangle → List (Widget × Rectangle)
  | [], _ => []
  | c :: cs, region =>
    if (Widget.HandleInput inp c region).consumed then
      [(c, region)]
    else
      (c, region) :: Panel.inputCalls inp cs region

/-- Successive polls of one panel against the same container region, one
engine input state per poll: the panel after the last poll and the callbacks
invoked, in order. -/
def Panel.pollAll (p : Panel) (region : Rectangle) : List Input → Panel × List Event
  | [] => (p, [])
  | inp :: rest =>
    let r := Panel.HandleInput inp p region
    let r2 := Panel.pollAll r.self region rest
    (r2.1, r.events ++ r2.2)

/-- The pressed flag of a widget that is a button. -/
def Widget.pressedFlag : Widget → Option Bool
  | Widget.button b => some b.pressed
  | _ => none

/-- An integer lies in the range of Go's 64-bit `int`. -/
def InIntRange (n : Int) : Prop :=
  -(2 ^ 63) ≤ n ∧ n < 2 ^ 63

instance (n : Int) : Decidable (InIntRange n) := by
  unfold InIntRange
  infer_instance

/-! ## More sample data -/

/-- An idle button with a callback, at `(20, 0)`-`(30, 10)` in its container,
disjoint from the sample button. -/
def sampleButtonB : Button :=
  { Region := Rect 20 0 30 10, Text := "no", OnClick := some 8, pressed := false }

/-- A panel holding the sample button and then the second sample button. -/
def sampleTwoButtons : Panel :=
  Panel.mk [Widget.button sampleButton, Widget.button sampleButtonB] none

/-- An input state: pointer inside the second sample button, mouse button just
pressed and held. -/
def samplePressB : Input :=
  { cursor := Pt 45 35, held := true, justPressed := true, justReleased := false }

/-- An input state: pointer inside the first sample button and outside the
second, mouse button still held. -/
def sampleDragToA : Input :=
  { cursor := Pt 25 35, held := true, justPressed := false, justReleased := false }

/-- An input state: pointer inside the second sample button, mouse button
still held. -/
def sampleDragToB : Input :=
  { cursor := Pt 45 35, held := true, justPressed := false, justReleased := false }

/-- An input state: pointer inside the second sample button, mouse button just
released. -/
def sampleReleaseB : Input :=
  { cursor := Pt 45 35, held := false, justPressed := false, justReleased := true }

/-- A button whose region `(200, 200)`-`(210, 210)` lies outside the sample
container region once translated. -/
def sampleFarButton : Button :=
  { Region := Rect 200 200 210 210, Text := "far", OnClick := some 9, pressed := false }

/-- An input state: pointer inside the far sample button, outside the sample
container region. -/
def sampleFarHover : Input :=
  { cursor := Pt 225 235, held := false, justPressed := false, justReleased := false }

/-- A container region whose origin is five below the largest `int` in `X`. -/
def sampleEdgeRegion : Rectangle :=
  Rect (2 ^ 63 - 5) 0 (2 ^ 63 - 1) 100

/-- The second sample button in the pressed state. -/
def samplePressedButtonB : Button :=
  { sampleButtonB with pressed := true }

/-- The drag of the claim about panels: press inside the second sample button,
move to the first one while held, move back while held, release. -/
def sampleDragSequence : List Input :=
  [samplePressB, sampleDragToA, sampleDragToB, sampleReleaseB]

/-- A pressed button of zero width. -/
def sampleZeroButton : Button :=
  { Region := Rect 0 0 0 10, Text := "", OnClick := some 5, pressed := true }

/-- An input state: pointer on the left edge of the sample button. -/
def sampleLeftEdge : Input :=
  { cursor := Pt 20 35, held := false, justPressed := false, justReleased := false }

/-- An input state: pointer on the top edge of the sample button. -/
def sampleTopEdge : Input :=
  { cursor := Pt 25 30, held := false, justPressed := false, justReleased := false }

/-- An input state: pointer on the right edge of the sample button. -/
def sampleRightEdge : Input :=
  { cursor := Pt 30 35, held := false, justPressed := false, justReleased := false }

/-- A zero-area region with the origin of the sample container region. -/
def sampleOriginRegion : Rectangle :=
  Rect 20 30 20 30

/-- A region of size `10 x 10` whose origin is `2^53 + 1` in `X`. -/
def sampleBigRegion : Rectangle :=
  Rect (2 ^ 53 + 1) 0 (2 ^ 53 + 11) 10

/-- A panel with a white background and no children. -/
def sampleBarePanel : Panel :=
  Panel.mk [] (some { R := 255, G := 255, B := 255, A := 255 })

/-! ## Panel polling over children held by reference -/

/-- The outcome of the loop of `Panel.HandleInput` over children held by
reference: the returned boolean, the program state afterwards, the callbacks
invoked, and the calls `c.HandleInput(region)` made, in order, each by the
child's reference and the region it is given. -/
structure LoopPoll (σ ι : Type) where
  consumed : Bool
  state : σ
  events : List Event
  calls : List (ι × Rectangle)

/-- The body of `Panel.HandleInput` over children held by reference: the loop
over the remaining children and the `return true` after it.  `poll c region` is
the method call `c.HandleInput(region)`, acting on the program state. -/
def Panel.handleRefs {σ ι : Type} (poll : ι → Rectangle → σ → Poll σ) :
    List ι → Rectangle → σ → LoopPoll σ ι
  | [], _, s => { consumed := true, state := s, events := [], calls := [] }
  | c :: cs, region, s =>
    let r := poll c region s
    if r.consumed then
      { consumed := true, state := r.self, events := r.events, calls := [(c, region)] }
    else
      let rest := Panel.handleRefs poll cs region r.self
      { consumed := rest.consumed, state := rest.state, events := r.events ++ rest.events,
        calls := (c, region) :: rest.calls }

/-- The given calls `c.HandleInput(region)` made one after the other: the
program state afterwards, the callbacks invoked, and the value that each call
returned. -/
def replayCalls {σ ι : Type} (poll : ι → Rectangle → σ → Poll σ) :
    List (ι × Rectangle) → σ → σ × List Event × List Bool
  | [], s => (s, [], [])
  | (c, region) :: rest, s =>
    let r := poll c region s
    let r2 := replayCalls poll rest r.self
    (r2.1, r.events ++ r2.2.1, r.consumed :: r2.2.2)

/-- A program state that holds one widget object at each address. -/
abbrev Heap : Type :=
  Nat → Widget

/-- The call `c.HandleInput(region)` on the child `c` that refers to the object
at address `a`: the object is polled and the heap holds it as the poll leaves
it. -/
def Heap.pollAt (inp : Input) (a : Nat) (region : Rectangle) (h : Heap) : Poll Heap :=
  let r := Widget.HandleInput inp (h a) region
  { consumed := r.consumed, self := Function.update h a r.self, events := r.events }

/-- A heap that holds the idle sample button at every address. -/
def sampleAliasHeap : Heap :=
  fun _ => Widget.button sampleButton

/-- A heap that holds the idle sample button at address `0`, the pressed second
sample button at address `1` and the sample label elsewhere. -/
def sampleHeap : Heap :=
  fun a =>
    match a with
    | 0 => Widget.button sampleButton
    | 1 => Widget.button samplePressedButtonB
    | _ => Widget.label sampleLabel

/-! ## Auxiliary facts -/

theorem Button.HandleInput_consumed (inp : Input) (b : Button) (region : Rectangle) :
    (Button.HandleInput inp b region).consumed = inp.cursor.In (absRegion b.Region region) := by
  unfold Button.HandleInput
  cases hin : inp.cursor.In (absRegion b.Region region) <;>
    cases hp : b.pressed <;> cases inp.held <;> cases inp.justReleased <;>
    cases inp.justPressed <;> simp [hin, hp]

theorem Button.HandleInput_pressed (inp : Input) (b : Button) (region : Rectangle) :
    (Button.HandleInput inp b region).self.pressed =
      (inp.cursor.In (absRegion b.Region region) &&
        ((b.pressed && (inp.held || !inp.justReleased)) ||
          (!b.pressed && inp.justPressed))) := by
  unfold Button.HandleInput
  cases hin : inp.cursor.In (absRegion b.Region region) <;>
    cases hp : b.pressed <;> cases inp.held <;> cases inp.justReleased <;>
    cases inp.justPressed <;> simp [hin, hp]

theorem Button.HandleInput_region (inp : Input) (b : Button) (region : Rectangle) :
    (Button.HandleInput inp b region).self.Region = b.Region := by
  unfold Button.HandleInput
  cases hin : inp.cursor.In (absRegion b.Region region) <;>
    cases hp : b.pressed <;> cases inp.held <;> cases inp.justReleased <;>
    cases inp.justPressed <;> simp [hin, hp]

theorem Button.HandleInput_events_idle (inp : Input) (b : Button) (region : Rectangle)
    (hidle : b.pressed = false) : (Button.HandleInput inp b region).events = [] := by
  unfold Button.HandleInput
  cases hin : inp.cursor.In (absRegion b.Region region) <;>
    cases inp.justPressed <;> simp [hin, hidle]

theorem Button.HandleInput_events_outside (inp : Input) (b : Button) (region : Rectangle)
    (hout : inp.cursor.In (absRegion b.Region region) = false) :
    (Button.HandleInput inp b region).events = [] := by
  unfold Button.HandleInput
  simp [hout]

theorem Panel.handleChildren_consumed (inp : Input) (region : Rectangle) (cs : List Widget) :
    (Panel.handleChildren inp cs region).consumed = true := by
  induction cs with
  | nil => simp [Panel.handleChildren]
  | cons c cs ih =>
    rw [Panel.handleChildren]
    by_cases h : (Widget.HandleInput inp c region).consumed = true
    · simp [h]
    · simp [h, ih]

theorem Button.pollAll_quiet (region : Rectangle) (rest : List Input) :
    ∀ b : Button, b.pressed = false →
      (∀ inp ∈ rest, ¬ (inp.justPressed = true ∧
        inp.cursor.In (absRegion b.Region region) = true)) →
      (Button.pollAll b region rest).2 = [] ∧
        (Button.pollAll b region rest).1.pressed = false := by
  induction rest with
  | nil =>
    intro b hidle _
    simp [Button.pollAll, hidle]
  | cons inp rest ih =>
    intro b hidle hquiet
    have hhead := hquiet inp (List.mem_cons_self inp rest)
    have hpressed : (Button.HandleInput inp b region).self.pressed = false := by
      rw [Button.HandleInput_pressed, hidle]
      cases hjp : inp.justPressed <;>
        cases hin : inp.cursor.In (absRegion b.Region region) <;> simp_all
    have htail : ∀ i ∈ rest, ¬ (i.justPressed = true ∧
        i.cursor.In (absRegion (Button.HandleInput inp b region).self.Region region) = true) := by
      intro i hi
      rw [Button.HandleInput_region]
      exact hquiet i (List.mem_cons_of_mem inp hi)
    have hrest := ih (Button.HandleInput inp b region).self hpressed htail
    simp only [Button.pollAll]
    rw [Button.HandleInput_events_idle inp b region hidle, hrest.1]
    exact ⟨rfl, hrest.2⟩

/-! ## Button input handling -/

/-- C1: one poll of `Button.HandleInput` moves the button between idle and
pressed exactly as the specification's transition table says, for every button,
container region, pointer position and combination of the held, just-pressed
and just-released flags. -/
theorem button_poll_follows_table (inp : Input) (b : Button) (region : Rectangle) :
    (Button.HandleInput inp b region).self.state =
      specNext b.state (inp.cursor.In (absRegion b.Region region))
        inp.held inp.justPressed inp.justReleased := by
  unfold Button.state
  rw [Button.HandleInput_pressed]
  cases inp.cursor.In (absRegion b.Region region) <;> cases b.pressed <;>
    cases inp.held <;> cases inp.justPressed <;> cases inp.justReleased <;> rfl

/-- C2: for an idle button with a callback, a poll with the pointer inside and
the mouse button just pressed and held, followed by a poll with the pointer
inside, the mouse button not held and just released, invokes the callback zero
times in the first poll and exactly once in the second, and leaves the button
idle. -/
theorem button_click_fires_once (b : Button) (region : Rectangle) (inp1 inp2 : Input)
    (f : Nat) (hidle : b.pressed = false) (hcb : b.OnClick = some f)
    (hin1 : inp1.cursor.In (absRegion b.Region region) = true)
    (hjp1 : inp1.justPressed = true) (_hheld1 : inp1.held = true)
    (hin2 : inp2.cursor.In (absRegion b.Region region) = true)
    (hheld2 : inp2.held = false) (hjr2 : inp2.justReleased = true) :
    (Button.HandleInput inp1 b region).events = [] ∧
      (Button.HandleInput inp2 (Button.HandleInput inp1 b region).self region).events =
        [Event.click f] ∧
      (Button.pollAll b region [inp1, inp2]).2 = [Event.click f] ∧
      (Button.pollAll b region [inp1, inp2]).1.pressed = false := by
  have h1 : Button.HandleInput inp1 b region =
      { consumed := true, self := { b with pressed := true }, events := [] } := by
    simp [Button.HandleInput, hidle, hin1, hjp1]
  have h2 : Button.HandleInput inp2 { b with pressed := true } region =
      { consumed := true, self := { b with pressed := false },
        events := [Event.click f] } := by
    simp [Button.HandleInput, hin2, hheld2, hjr2, hcb]
  simp [Button.pollAll, h1, h2]

/-- Witness for C2 on the sample button: a press inside, then a release inside. -/
theorem button_click_fires_once_witness :
    (Button.pollAll sampleButton sampleRegion [samplePress, sampleRelease]).2 =
        [Event.click 7] ∧
      (Button.pollAll sampleButton sampleRegion [samplePress, sampleRelease]).1.pressed =
        false :=
  (button_click_fires_once sampleButton sampleRegion samplePress sampleRelease 7
    (by decide) (by decide) (by decide) (by decide) (by decide) (by decide)
    (by decide) (by decide)).2.2

/-- C3: for an idle button, after a poll with a press inside the absolute
region (the button becomes pressed) and a poll with the pointer outside it
(the button becomes idle again, whatever the mouse flags), every continuation
of polls without a just-pressed event inside the region invokes no callback:
the whole sequence of polls invokes the callback zero times. -/
theorem button_leave_cancels_click (b : Button) (region : Rectangle) (inp1 inp2 : Input)
    (rest : List Input) (hidle : b.pressed = false)
    (hin1 : inp1.cursor.In (absRegion b.Region region) = true)
    (hjp1 : inp1.justPressed = true)
    (hout2 : inp2.cursor.In (absRegion b.Region region) = false)
    (hquiet : ∀ inp ∈ rest, ¬ (inp.justPressed = true ∧
      inp.cursor.In (absRegion b.Region region) = true)) :
    (Button.HandleInput inp1 b region).self.pressed = true ∧
      (Button.pollAll b region [inp1, inp2]).1.pressed = false ∧
      (Button.pollAll b region (inp1 :: inp2 :: rest)).2 = [] := by
  have hp1 : (Button.HandleInput inp1 b region).self.pressed = true := by
    rw [Button.HandleInput_pressed, hidle, hin1, hjp1]
    rfl
  have hr1 : (Button.HandleInput inp1 b region).self.Region = b.Region :=
    Button.HandleInput_region inp1 b region
  have hout2' : inp2.cursor.In
      (absRegion (Button.HandleInput inp1 b region).self.Region region) = false := by
    rw [hr1]
    exact hout2
  have hp2 : (Button.HandleInput inp2 (Button.HandleInput inp1 b region).self
      region).self.pressed = false := by
    rw [Button.HandleInput_pressed, hout2']
    rfl
  have hquiet' : ∀ inp ∈ rest, ¬ (inp.justPressed = true ∧
      inp.cursor.In (absRegion (Button.HandleInput inp2
        (Button.HandleInput inp1 b region).self region).self.Region region) = true) := by
    intro inp hinp
    rw [Button.HandleInput_region, hr1]
    exact hquiet inp hinp
  have hrest := Button.pollAll_quiet region rest _ hp2 hquiet'
  refine ⟨hp1, ?_, ?_⟩
  · simpa [Button.pollAll] using hp2
  · simp only [Button.pollAll]
    rw [Button.HandleInput_events_idle inp1 b region hidle,
      Button.HandleInput_events_outside inp2 _ region hout2', hrest.1]
    rfl

/-- Witness for C3 on the sample button: press inside, leave while held, then
release inside and hover. -/
theorem button_leave_cancels_click_witness :
    (Button.pollAll sampleButton sampleRegion
      [samplePress, sampleLeave, sampleRelease, sampleHover]).2 = [] :=
  (button_leave_cancels_click sampleButton sampleRegion samplePress sampleLeave
    [sampleRelease, sampleHover] (by decide) (by decide) (by decide) (by decide)
    (by decide)).2.2

/-- C4: `Button.HandleInput` returns true for every pointer position strictly
inside the button's absolute region and false for every pointer position
strictly outside it, and its return value is the same whatever the pressed flag
and the held, just-pressed and just-released flags are. -/
theorem button_consumes_by_position (b : Button) (region : Rectangle) (cursor : Point) :
    (cursor.StrictlyIn (absRegion b.Region region) →
      ∀ pressed held jp jr : Bool,
        (Button.HandleInput
          { cursor := cursor, held := held, justPressed := jp, justReleased := jr }
          { b with pressed := pressed } region).consumed = true) ∧
    (cursor.StrictlyOut (absRegion b.Region region) →
      ∀ pressed held jp jr : Bool,
        (Button.HandleInput
          { cursor := cursor, held := held, justPressed := jp, justReleased := jr }
          { b with pressed := pressed } region).consumed = false) ∧
    (∀ pressed held jp jr pressed' held' jp' jr' : Bool,
      (Button.HandleInput
        { cursor := cursor, held := held, justPressed := jp, justReleased := jr }
        { b with pressed := pressed } region).consumed =
      (Button.HandleInput
        { cursor := cursor, held := held', justPressed := jp', justReleased := jr' }
        { b with pressed := pressed' } region).consumed) := by
  refine ⟨?_, ?_, ?_⟩
  · intro hin pressed held jp jr
    rw [Button.HandleInput_consumed]
    obtain ⟨h1, h2, h3, h4⟩ := hin
    simp [Point.In, h1.le, h2, h3.le, h4]
  · intro hout pressed held jp jr
    rw [Button.HandleInput_consumed]
    unfold Point.StrictlyOut at hout
    simp only [Point.In, Bool.and_eq_false_iff, decide_eq_false_iff_not, not_le, not_lt]
    omega
  · intro pressed held jp jr pressed' held' jp' jr'
    rw [Button.HandleInput_consumed, Button.HandleInput_consumed]

/-- Witness for C4 on the sample button: the point `(25, 35)` is strictly inside
its absolute region and the point `(60, 35)` is strictly outside it. -/
theorem button_consumes_by_position_witness :
    (Pt 25 35).StrictlyIn (absRegion sampleButton.Region sampleRegion) ∧
      (Button.HandleInput sampleHover samplePressedButton sampleRegion).consumed = true ∧
      (Pt 60 35).StrictlyOut (absRegion sampleButton.Region sampleRegion) ∧
      (Button.HandleInput sampleLeave samplePressedButton sampleRegion).consumed = false :=
  ⟨by decide,
    (button_consumes_by_position sampleButton sampleRegion (Pt 25 35)).1 (by decide)
      true false false false,
    by decide,
    (button_consumes_by_position sampleButton sampleRegion (Pt 60 35)).2.1 (by decide)
      true true false false⟩

/-- C6, counterexample: a pressed button polled with the pointer inside its
absolute region while the mouse button is not held, not just pressed and not
just released is still pressed after the poll. -/
theorem button_stale_poll_stays_pressed :
    sampleHover.held = false ∧
      sampleHover.cursor.In (absRegion samplePressedButton.Region sampleRegion) = true ∧
      samplePressedButton.pressed = true ∧
      (Button.HandleInput sampleHover samplePressedButton sampleRegion).self.pressed =
        true := by
  decide

/-- C6, amended: when a button is polled while the mouse button is not held,
the pressed flag is false after the poll exactly when the pointer is outside the
absolute region, or the button was pressed and a release is reported in this
poll, or the button was idle and no press is reported in this poll. -/
theorem button_not_held_poll (inp : Input) (b : Button) (region : Rectangle)
    (hheld : inp.held = false) :
    (Button.HandleInput inp b region).self.pressed = false ↔
      (inp.cursor.In (absRegion b.Region region) = false ∨
        (b.pressed = true ∧ inp.justReleased = true) ∨
        (b.pressed = false ∧ inp.justPressed = false)) := by
  rw [Button.HandleInput_pressed, hheld]
  cases inp.cursor.In (absRegion b.Region region) <;> cases b.pressed <;>
    cases inp.justPressed <;> cases inp.justReleased <;> simp

/-- Witness for the amended C6 on the sample button: pressed, pointer inside,
mouse button not held and just released. -/
theorem button_not_held_poll_witness :
    sampleRelease.held = false ∧
      (Button.HandleInput sampleRelease samplePressedButton sampleRegion).self.pressed =
        false :=
  ⟨by decide,
    (button_not_held_poll sampleRelease samplePressedButton sampleRegion (by decide)).2
      (by decide)⟩

/-! ## Panel and label input handling -/

/-- C5: `Panel.HandleInput` returns true for every panel, whatever its children
are (none, or none that consumes the event) and whatever the region is. -/
theorem panel_always_consumes (inp : Input) (p : Panel) (region : Rectangle) :
    (Panel.HandleInput inp p region).consumed = true := by
  cases p with
  | mk cs bg =>
    rw [Panel.HandleInput]
    exact Panel.handleChildren_consumed inp region cs

/-- C10: `Label.HandleInput` returns false and leaves the label unchanged, for
every label and every region; it invokes no callback. -/
theorem label_never_consumes (inp : Input) (l : Label) (region : Rectangle) :
    (Label.HandleInput inp l region).consumed = false ∧
      (Label.HandleInput inp l region).self = l ∧
      (Label.HandleInput inp l region).events = [] ∧
      (Widget.HandleInput inp (Widget.label l) region).consumed = false := by
  simp [Label.HandleInput, Widget.HandleInput]

/-! ## Panel drawing -/

theorem float64_of_natAbs_le (n : Int) (h : n.natAbs ≤ 2 ^ 53) : float64 n = n := by
  rcases Nat.lt_or_ge n.natAbs (2 ^ 53) with hlt | hge
  · have hs : float64Shift n.natAbs 64 = 0 := by
      show float64Shift n.natAbs (63 + 1) = 0
      simp only [float64Shift]
      rw [if_pos hlt]
    have hv : (if (decide (2 ^ 0 < 2 * (n.natAbs % 2 ^ 0)) ||
        (decide (2 * (n.natAbs % 2 ^ 0) = 2 ^ 0) && decide (n.natAbs / 2 ^ 0 % 2 = 1))) = true
        then n.natAbs / 2 ^ 0 + 1 else n.natAbs / 2 ^ 0) * 2 ^ 0 = n.natAbs := by
      simp [Nat.mod_one]
    unfold float64
    simp only [hs, hv]
    by_cases hn : n < 0
    · rw [if_pos hn, Int.ofNat_natAbs_of_nonpos (le_of_lt hn), neg_neg]
    · rw [if_neg hn, Int.natAbs_of_nonneg (not_lt.mp hn)]
  · have hm : n.natAbs = 2 ^ 53 := Nat.le_antisymm h hge
    rcases Int.natAbs_eq n with hp | hp
    · rw [hm] at hp
      rw [hp]
      decide
    · rw [hm] at hp
      rw [hp]
      decide

theorem Panel.childCalls_eq_map (region : Rectangle) (cs : List Widget) :
    Panel.childCalls cs region = cs.map (fun c => PanelCall.childDraw c region) := by
  induction cs with
  | nil => rfl
  | cons c cs ih => simp [Panel.childCalls, ih]

theorem Panel.drawChildren_eq_flatMap (textAt : TextAt) (region : Rectangle)
    (cs : List Widget) :
    Panel.drawChildren textAt cs region =
      cs.flatMap (fun c => Widget.Draw textAt c region) := by
  induction cs with
  | nil => simp [Panel.drawChildren]
  | cons c cs ih => simp [Panel.drawChildren, ih]

/-- C7: for a region of zero width or zero height `Panel.Draw` makes no call at
all: no background rectangle, no `Draw` call on a child, and so no call on the
screen. -/
theorem panel_draw_empty_region (textAt : TextAt) (p : Panel) (region : Rectangle)
    (hzero : region.Dx = 0 ∨ region.Dy = 0) :
    Panel.DrawCalls p region = [] ∧ Panel.Draw textAt p region = [] := by
  cases p with
  | mk cs bg => simp [Panel.DrawCalls, Panel.Draw, hzero]

/-- Witness for C7: the sample panel drawn into a region of zero width. -/
theorem panel_draw_empty_region_witness :
    (sampleEmptyRegion.Dx = 0 ∨ sampleEmptyRegion.Dy = 0) ∧
      Panel.DrawCalls samplePanel sampleEmptyRegion = [] ∧
      Panel.Draw sampleTextAt samplePanel sampleEmptyRegion = [] :=
  ⟨by decide,
    panel_draw_empty_region sampleTextAt samplePanel sampleEmptyRegion (by decide)⟩

/-- C9, counterexample: for the sample region whose origin is `2^53 + 1` in
`X`, of non-zero width and height, the rectangle drawn by `Panel.Draw` is at
`x = 2^53`, not at `x = region.Min.X`. -/
theorem panel_draw_rounds_origin :
    sampleBigRegion.Dx ≠ 0 ∧ sampleBigRegion.Dy ≠ 0 ∧
      sampleBigRegion.Min.X = 2 ^ 53 + 1 ∧
      Panel.Draw sampleTextAt sampleBarePanel sampleBigRegion =
        [DrawOp.drawRect (2 ^ 53) 0 10 10 { R := 255, G := 255, B := 255, A := 255 }] ∧
      Panel.Draw sampleTextAt sampleBarePanel sampleBigRegion ≠
        [DrawOp.drawRect sampleBigRegion.Min.X sampleBigRegion.Min.Y sampleBigRegion.Dx
          sampleBigRegion.Dy { R := 255, G := 255, B := 255, A := 255 }] := by
  decide

/-- C9, amended: for a region of non-zero width and height, the calls made by
`Panel.Draw` are, in order: one filled rectangle in the background color if and
only if `BackgroundColor` is set, whose position and size are the `float64`
values of `region.Min.X`, `region.Min.Y`, `region.Dx` and `region.Dy`, then one
`Draw` call per child, in insertion order, each with the same region; when those
four integers have magnitude at most `2^53` the rectangle is exactly at
`region.Min` with width `region.Dx` and height `region.Dy`. -/
theorem panel_draw_sequence (textAt : TextAt) (p : Panel) (region : Rectangle)
    (hx : region.Dx ≠ 0) (hy : region.Dy ≠ 0) :
    (Panel.DrawCalls p region =
        (match p.BackgroundColor with
          | some clr =>
            [PanelCall.drawRect (float64 region.Min.X) (float64 region.Min.Y)
              (float64 region.Dx) (float64 region.Dy) clr]
          | none => []) ++
          p.Children.map (fun c => PanelCall.childDraw c region) ∧
      Panel.Draw textAt p region =
        (match p.BackgroundColor with
          | some clr =>
            [DrawOp.drawRect (float64 region.Min.X) (float64 region.Min.Y)
              (float64 region.Dx) (float64 region.Dy) clr]
          | none => []) ++
          p.Children.flatMap (fun c => Widget.Draw textAt c region)) ∧
    (region.Min.X.natAbs ≤ 2 ^ 53 → region.Min.Y.natAbs ≤ 2 ^ 53 →
      region.Dx.natAbs ≤ 2 ^ 53 → region.Dy.natAbs ≤ 2 ^ 53 →
      Panel.DrawCalls p region =
          (match p.BackgroundColor with
            | some clr =>
              [PanelCall.drawRect region.Min.X region.Min.Y region.Dx region.Dy clr]
            | none => []) ++
            p.Children.map (fun c => PanelCall.childDraw c region) ∧
        Panel.Draw textAt p region =
          (match p.BackgroundColor with
            | some clr =>
              [DrawOp.drawRect region.Min.X region.Min.Y region.Dx region.Dy clr]
            | none => []) ++
            p.Children.flatMap (fun c => Widget.Draw textAt c region)) := by
  have hgen : Panel.DrawCalls p region =
        (match p.BackgroundColor with
          | some clr =>
            [PanelCall.drawRect (float64 region.Min.X) (float64 region.Min.Y)
              (float64 region.Dx) (float64 region.Dy) clr]
          | none => []) ++
          p.Children.map (fun c => PanelCall.childDraw c region) ∧
      Panel.Draw textAt p region =
        (match p.BackgroundColor with
          | some clr =>
            [DrawOp.drawRect (float64 region.Min.X) (float64 region.Min.Y)
              (float64 region.Dx) (float64 region.Dy) clr]
          | none => []) ++
          p.Children.flatMap (fun c => Widget.Draw textAt c region) := by
    cases p with
    | mk cs bg =>
      constructor
      · simp only [Panel.DrawCalls, Panel.BackgroundColor, Panel.Children]
        rw [if_neg (by simp [hx, hy]), Panel.childCalls_eq_map]
      · simp only [Panel.Draw, Panel.BackgroundColor, Panel.Children]
        rw [if_neg (by simp [hx, hy]), Panel.drawChildren_eq_flatMap]
        cases bg <;> rfl
  refine ⟨hgen, ?_⟩
  intro h1 h2 h3 h4
  rw [hgen.1, hgen.2, float64_of_natAbs_le _ h1, float64_of_natAbs_le _ h2,
    float64_of_natAbs_le _ h3, float64_of_natAbs_le _ h4]
  exact ⟨rfl, rfl⟩

/-- Witness for the amended C9: the sample panel drawn into the sample region. -/
theorem panel_draw_sequence_witness :
    (sampleRegion.Dx ≠ 0 ∧ sampleRegion.Dy ≠ 0 ∧ sampleRegion.Min.X.natAbs ≤ 2 ^ 53) ∧
      Panel.Draw sampleTextAt samplePanel sampleRegion =
        (match samplePanel.BackgroundColor with
          | some clr =>
            [DrawOp.drawRect sampleRegion.Min.X sampleRegion.Min.Y sampleRegion.Dx
              sampleRegion.Dy clr]
          | none => []) ++
          samplePanel.Children.flatMap (fun c => Widget.Draw sampleTextAt c sampleRegion) :=
  ⟨by decide,
    ((panel_draw_sequence sampleTextAt samplePanel sampleRegion (by decide) (by decide)).2
      (by decide) (by decide) (by decide) (by decide)).2⟩

/-! ## The button texture -/

theorem set4_append (v0 v1 v2 v3 a b c d : Nat) (rest : List Nat) :
    ∀ l : List Nat,
      ((((l ++ a :: b :: c :: d :: rest).set l.length v0).set (l.length + 1) v1).set
        (l.length + 2) v2).set (l.length + 3) v3 = l ++ v0 :: v1 :: v2 :: v3 :: rest := by
  intro l
  induction l with
  | nil => rfl
  | cons x l ih =>
    simp only [List.cons_append, List.length_cons, List.set_cons_succ,
      Nat.add_right_comm _ 1 _]
    rw [ih]

theorem specPixel_length (i j : Nat) : (specPixel i j).length = 4 := by
  unfold specPixel
  split <;> rfl

theorem specPixels_length (k : Nat) :
    ((List.range k).flatMap (fun m => specPixel (m % 16) (m / 16))).length = 4 * k := by
  induction k with
  | zero => rfl
  | succ k ih =>
    rw [List.range_succ, List.flatMap_append, List.length_append, ih,
      List.flatMap_singleton, specPixel_length]
    omega

theorem initPixel_pixAfter (k : Nat) (hk : k < 256) :
    initPixel (k / 16) (k % 16) (pixAfter k) = pixAfter (k + 1) := by
  have hrep : List.replicate (4 * 16 * 16 - 4 * k) 0 =
      0 :: 0 :: 0 :: 0 :: List.replicate (4 * 16 * 16 - 4 * (k + 1)) 0 := by
    have : 4 * 16 * 16 - 4 * k = (4 * 16 * 16 - 4 * (k + 1)) + 4 := by omega
    rw [this]
    rfl
  have hlen := specPixels_length k
  unfold pixAfter
  rw [List.range_succ, List.flatMap_append, List.flatMap_singleton, List.append_assoc, hrep]
  generalize (List.range k).flatMap (fun m => specPixel (m % 16) (m / 16)) = l at hlen
  have h4 : 4 * (k + 1) = l.length + 4 := by omega
  rw [h4, ← hlen]
  unfold initPixel specPixel
  by_cases hb : k % 16 = 0 ∨ k % 16 = 15 ∨ k / 16 = 0 ∨ k / 16 = 15
  · simp only [if_pos hb]
    rw [set4_append]
    rfl
  · simp only [if_neg hb]
    rw [set4_append]
    rfl

theorem initRow_steps (j : Nat) (hj : j < 16) (n : Nat) (hn : n ≤ 16) :
    (List.range n).foldl (fun st i => initPixel j i st) (pixAfter (16 * j)) =
      pixAfter (16 * j + n) := by
  induction n with
  | zero => rfl
  | succ n ih =>
    rw [List.range_succ, List.foldl_append, ih (by omega)]
    simp only [List.foldl_cons, List.foldl_nil]
    have h1 : (16 * j + n) / 16 = j := by omega
    have h2 : (16 * j + n) % 16 = n := by omega
    have := initPixel_pixAfter (16 * j + n) (by omega)
    rw [h1, h2] at this
    rw [this]
    rfl

theorem initRows_steps (n : Nat) (hn : n ≤ 16) :
    (List.range n).foldl (fun st j => initRow j st) (pixAfter 0) = pixAfter (16 * n) := by
  induction n with
  | zero => rfl
  | succ n ih =>
    rw [List.range_succ, List.foldl_append, ih (by omega)]
    simp only [List.foldl_cons, List.foldl_nil]
    unfold initRow
    rw [initRow_steps n (by omega) 16 (le_refl 16)]
    rfl

theorem initPix_eq :
    initPix = (List.range 256).flatMap (fun m => specPixel (m % 16) (m / 16)) := by
  have h0 : (List.replicate (4 * 16 * 16) 0, 0) = pixAfter 0 := rfl
  unfold initPix
  rw [h0, initRows_steps 16 (le_refl 16)]
  simp [pixAfter]

theorem specPixels_chunk (n : Nat) :
    ∀ k, k < n →
      (((List.range n).flatMap (fun m => specPixel (m % 16) (m / 16))).drop (4 * k)).take 4 =
        specPixel (k % 16) (k / 16) := by
  induction n with
  | zero => intro k hk; omega
  | succ n ih =>
    intro k hk
    rw [List.range_succ, List.flatMap_append, List.flatMap_singleton]
    by_cases hkn : k < n
    · have hlen := specPixels_length n
      rw [List.drop_append_of_le_length (by omega),
        List.take_append_of_le_length (by rw [List.length_drop]; omega)]
      exact ih k hkn
    · have hk' : k = n := by omega
      subst hk'
      have hlen := specPixels_length k
      rw [← hlen, List.drop_left]
      exact List.take_of_length_le (by rw [specPixel_length])

/-- C8: the pixel buffer that `init` builds for the button texture has
`4*16*16 = 1024` bytes, and for all `i, j < 16` its four bytes at offset
`4*(16*j+i)` are `0x33, 0x33, 0x33, 0xff` when `i` or `j` is `0` or `15` and
`0xcc, 0xcc, 0xcc, 0xff` otherwise; pixels `(0, 0)` and `(15, 15)` have the dark
border color and pixel `(8, 8)` has the light interior color. -/
theorem button_texture_pixels :
    initPix.length = 1024 ∧
      (∀ i j : Nat, i < 16 → j < 16 →
        (initPix.drop (4 * (16 * j + i))).take 4 =
          if i = 0 ∨ i = 15 ∨ j = 0 ∨ j = 15 then [0x33, 0x33, 0x33, 0xff]
          else [0xcc, 0xcc, 0xcc, 0xff]) ∧
      (initPix.drop (4 * (16 * 0 + 0))).take 4 = [0x33, 0x33, 0x33, 0xff] ∧
      (initPix.drop (4 * (16 * 15 + 15))).take 4 = [0x33, 0x33, 0x33, 0xff] ∧
      (initPix.drop (4 * (16 * 8 + 8))).take 4 = [0xcc, 0xcc, 0xcc, 0xff] := by
  have hall : ∀ i j : Nat, i < 16 → j < 16 →
      (initPix.drop (4 * (16 * j + i))).take 4 =
        if i = 0 ∨ i = 15 ∨ j = 0 ∨ j = 15 then [0x33, 0x33, 0x33, 0xff]
        else [0xcc, 0xcc, 0xcc, 0xff] := by
    intro i j hi hj
    have h1 : (16 * j + i) / 16 = j := by omega
    have h2 : (16 * j + i) % 16 = i := by omega
    rw [initPix_eq, specPixels_chunk 256 (16 * j + i) (by omega), h1, h2]
    rfl
  refine ⟨?_, hall, ?_, ?_, ?_⟩
  · rw [initPix_eq]
    exact specPixels_length 256
  · exact hall 0 0 (by decide) (by decide)
  · exact hall 15 15 (by decide) (by decide)
  · exact hall 8 8 (by decide) (by decide)

/-- Witness for C8: pixel `(3, 0)`, on the top border. -/
theorem button_texture_pixels_witness :
    (3 < 16 ∧ 0 < 16) ∧
      (initPix.drop (4 * (16 * 0 + 3))).take 4 =
        if (3 : Nat) = 0 ∨ (3 : Nat) = 15 ∨ (0 : Nat) = 0 ∨ (0 : Nat) = 15 then
          [0x33, 0x33, 0x33, 0xff]
        else [0xcc, 0xcc, 0xcc, 0xff] :=
  ⟨by decide, button_texture_pixels.2.1 3 0 (by decide) (by decide)⟩

/-! ## The click callback -/

/-- C11: one poll of `Button.HandleInput` invokes the click callback at most
once, and it invokes it if and only if the button was pressed before the poll,
the pointer is inside the absolute region, the mouse button is not held, it was
just released in this poll, and `OnClick` is not nil; in every other case the
poll invokes no callback. -/
theorem button_click_condition (inp : Input) (b : Button) (region : Rectangle) :
    (Button.HandleInput inp b region).events.length ≤ 1 ∧
      (∀ f : Nat, Event.click f ∈ (Button.HandleInput inp b region).events ↔
        (b.pressed = true ∧ inp.cursor.In (absRegion b.Region region) = true ∧
          inp.held = false ∧ inp.justReleased = true ∧ b.OnClick = some f)) ∧
      ((Button.HandleInput inp b region).events ≠ [] ↔
        (b.pressed = true ∧ inp.cursor.In (absRegion b.Region region) = true ∧
          inp.held = false ∧ inp.justReleased = true ∧ b.OnClick ≠ none)) := by
  unfold Button.HandleInput
  cases hin : inp.cursor.In (absRegion b.Region region) <;>
    cases hp : b.pressed <;> cases hh : inp.held <;> cases hr : inp.justReleased <;>
    cases hj : inp.justPressed <;> cases hc : b.OnClick <;> simp [hin, hp, hc, eq_comm]

/-! ## The absolute region -/

theorem wrapInt_of_inIntRange (n : Int) (h : InIntRange n) : wrapInt n = n := by
  unfold InIntRange at h
  unfold wrapInt
  omega

theorem wrapInt_add_wrapInt (a b : Int) : wrapInt (a + wrapInt b) = wrapInt (a + b) := by
  unfold wrapInt
  omega

theorem wrapInt_wrapInt (a : Int) : wrapInt (wrapInt a) = wrapInt a := by
  unfold wrapInt
  omega

theorem Rect_of_le (x0 y0 x1 y1 : Int) (hx : x0 ≤ x1) (hy : y0 ≤ y1) :
    Rect x0 y0 x1 y1 = { Min := { X := x0, Y := y0 }, Max := { X := x1, Y := y1 } } := by
  unfold Rect
  simp [not_lt.mpr hx, not_lt.mpr hy]

theorem Rect_Min_le_Max (x0 y0 x1 y1 : Int) :
    (Rect x0 y0 x1 y1).Min.X ≤ (Rect x0 y0 x1 y1).Max.X ∧
      (Rect x0 y0 x1 y1).Min.Y ≤ (Rect x0 y0 x1 y1).Max.Y := by
  unfold Rect
  by_cases hx : x0 > x1 <;> by_cases hy : y0 > y1 <;> simp [hx, hy] <;> omega

theorem Rect_same_X (x y0 y1 : Int) :
    (Rect x y0 x y1).Min.X = (Rect x y0 x y1).Max.X := by
  unfold Rect
  by_cases hy : y0 > y1 <;> simp [hy]

theorem Rect_same_Y (x0 x1 y : Int) :
    (Rect x0 y x1 y).Min.Y = (Rect x0 y x1 y).Max.Y := by
  unfold Rect
  by_cases hx : x0 > x1 <;> simp [hx]

theorem absRegion_of_inIntRange (rel region : Rectangle)
    (hwx : rel.Min.X ≤ rel.Max.X) (hwy : rel.Min.Y ≤ rel.Max.Y)
    (hx0 : InIntRange (region.Min.X + rel.Min.X))
    (hx1 : InIntRange (region.Min.X + rel.Max.X))
    (hy0 : InIntRange (region.Min.Y + rel.Min.Y))
    (hy1 : InIntRange (region.Min.Y + rel.Max.Y)) :
    absRegion rel region =
      { Min := { X := region.Min.X + rel.Min.X, Y := region.Min.Y + rel.Min.Y },
        Max := { X := region.Min.X + rel.Max.X, Y := region.Min.Y + rel.Max.Y } } := by
  have ex : region.Min.X + rel.Min.X + (rel.Max.X - rel.Min.X) = region.Min.X + rel.Max.X := by
    ring
  have ey : region.Min.Y + rel.Min.Y + (rel.Max.Y - rel.Min.Y) = region.Min.Y + rel.Max.Y := by
    ring
  unfold absRegion Rectangle.Dx Rectangle.Dy
  simp only [wrapInt_of_inIntRange _ hx0, wrapInt_of_inIntRange _ hy0, wrapInt_add_wrapInt,
    ex, ey, wrapInt_of_inIntRange _ hx1, wrapInt_of_inIntRange _ hy1]
  exact Rect_of_le _ _ _ _ (by omega) (by omega)

theorem absRegion_In_of_zero (rel region : Rectangle) (p : Point)
    (hzero : rel.Dx = 0 ∨ rel.Dy = 0) : p.In (absRegion rel region) = false := by
  have hedge : (absRegion rel region).Min.X = (absRegion rel region).Max.X ∨
      (absRegion rel region).Min.Y = (absRegion rel region).Max.Y := by
    unfold absRegion
    rcases hzero with h | h
    · left
      simp only [h, add_zero, wrapInt_wrapInt]
      exact Rect_same_X _ _ _
    · right
      simp only [h, add_zero, wrapInt_wrapInt]
      exact Rect_same_Y _ _ _
  simp only [Point.In, Bool.and_eq_false_iff, decide_eq_false_iff_not, not_le, not_lt]
  omega

theorem absRegion_same_origin (rel region region' : Rectangle)
    (hmin : region.Min = region'.Min) : absRegion rel region = absRegion rel region' := by
  unfold absRegion
  rw [hmin]

/-- C13, counterexample: for the well-formed sample button region
`(0, 0)`-`(10, 10)` and a container whose origin is `2^63 - 5` in `X`, the sum
`x + rel.Dx()` overflows, `image.Rect` swaps the corners, and neither the `Min`
corner nor the width of the absolute region is that of the translated
rectangle. -/
theorem absRegion_overflow_swaps :
    sampleButton.Region.Min.X ≤ sampleButton.Region.Max.X ∧
      sampleButton.Region.Min.Y ≤ sampleButton.Region.Max.Y ∧
      InIntRange sampleEdgeRegion.Min.X ∧
      (absRegion sampleButton.Region sampleEdgeRegion).Min.X ≠
        wrapInt (sampleEdgeRegion.Min.X + sampleButton.Region.Min.X) ∧
      (absRegion sampleButton.Region sampleEdgeRegion).Dx ≠ sampleButton.Region.Dx := by
  decide

/-- C13, amended: for every well-formed relative rectangle `rel` and every
container region such that the sums of the container's origin with `rel.Min`
and with `rel.Max` lie in the range of `int`, `absRegion rel region` is `rel`
translated by the container's origin: its corners are `region.Min + rel.Min`
and `region.Min + rel.Max`, its width and height are `rel.Dx` and `rel.Dy`, a
point `p` is in `rel` exactly when `p + region.Min` is in it, and it is `rel`
itself when `region.Min` is `(0, 0)`. -/
theorem absRegion_translates (rel region : Rectangle)
    (hwx : rel.Min.X ≤ rel.Max.X) (hwy : rel.Min.Y ≤ rel.Max.Y)
    (hx0 : InIntRange (region.Min.X + rel.Min.X))
    (hx1 : InIntRange (region.Min.X + rel.Max.X))
    (hy0 : InIntRange (region.Min.Y + rel.Min.Y))
    (hy1 : InIntRange (region.Min.Y + rel.Max.Y)) :
    (absRegion rel region).Min =
        { X := region.Min.X + rel.Min.X, Y := region.Min.Y + rel.Min.Y } ∧
      (absRegion rel region).Max =
        { X := region.Min.X + rel.Max.X, Y := region.Min.Y + rel.Max.Y } ∧
      (absRegion rel region).Dx = rel.Dx ∧
      (absRegion rel region).Dy = rel.Dy ∧
      (∀ p : Point, p.In rel =
        Point.In { X := p.X + region.Min.X, Y := p.Y + region.Min.Y }
          (absRegion rel region)) ∧
      (region.Min = { X := 0, Y := 0 } → absRegion rel region = rel) := by
  rw [absRegion_of_inIntRange rel region hwx hwy hx0 hx1 hy0 hy1]
  refine ⟨rfl, rfl, ?_, ?_, ?_, ?_⟩
  · simp only [Rectangle.Dx]
    congr 1
    ring
  · simp only [Rectangle.Dy]
    congr 1
    ring
  · intro p
    rw [Bool.eq_iff_iff]
    simp only [Point.In, Bool.and_eq_true, decide_eq_true_eq]
    omega
  · intro hmin
    rw [hmin]
    cases rel with
    | mk rmin rmax =>
      cases rmin
      cases rmax
      simp

/-- Witness for the amended C13: the sample button region in the sample
container region. -/
theorem absRegion_translates_witness :
    (sampleButton.Region.Min.X ≤ sampleButton.Region.Max.X ∧
        InIntRange (sampleRegion.Min.X + sampleButton.Region.Max.X)) ∧
      (absRegion sampleButton.Region sampleRegion).Min =
        { X := sampleRegion.Min.X + sampleButton.Region.Min.X,
          Y := sampleRegion.Min.Y + sampleButton.Region.Min.Y } :=
  ⟨by decide,
    (absRegion_translates sampleButton.Region sampleRegion (by decide) (by decide)
      (by decide) (by decide) (by decide) (by decide)).1⟩

/-! ## The hit test -/

theorem Button.pollAll_zero_size (region : Rectangle) (inputs : List Input) :
    ∀ b : Button, (b.Region.Dx = 0 ∨ b.Region.Dy = 0) →
      (Button.pollAll b region inputs).2 = [] ∧
        (inputs ≠ [] → (Button.pollAll b region inputs).1.pressed = false) := by
  induction inputs with
  | nil =>
    intro b _
    simp [Button.pollAll]
  | cons inp rest ih =>
    intro b hzero
    have hout := absRegion_In_of_zero b.Region region inp.cursor hzero
    have hzero' : (Button.HandleInput inp b region).self.Region.Dx = 0 ∨
        (Button.HandleInput inp b region).self.Region.Dy = 0 := by
      rw [Button.HandleInput_region]
      exact hzero
    have hrest := ih (Button.HandleInput inp b region).self hzero'
    simp only [Button.pollAll]
    rw [Button.HandleInput_events_outside inp b region hout, hrest.1]
    refine ⟨rfl, fun _ => ?_⟩
    cases rest with
    | nil =>
      simp only [Button.pollAll]
      rw [Button.HandleInput_pressed, hout]
      rfl
    | cons i is => exact hrest.2 (List.cons_ne_nil i is)

/-- C15: the button hit test is half-open.  With `r` the absolute region and
`(px, py)` the pointer, `Button.HandleInput` returns true if and only if
`r.Min.X ≤ px < r.Max.X` and `r.Min.Y ≤ py < r.Max.Y`; so a pointer on the left
or top edge of a non-empty region consumes the event, a pointer on the right or
bottom edge does not, and a button whose `Region` has zero width or zero height
returns false for every pointer position, is idle after every poll and never
invokes its callback. -/
theorem button_hit_test_half_open (inp : Input) (b : Button) (region : Rectangle) :
    ((Button.HandleInput inp b region).consumed = true ↔
        ((absRegion b.Region region).Min.X ≤ inp.cursor.X ∧
          inp.cursor.X < (absRegion b.Region region).Max.X ∧
          (absRegion b.Region region).Min.Y ≤ inp.cursor.Y ∧
          inp.cursor.Y < (absRegion b.Region region).Max.Y)) ∧
      (inp.cursor.X = (absRegion b.Region region).Min.X →
        (absRegion b.Region region).Min.X < (absRegion b.Region region).Max.X →
        (absRegion b.Region region).Min.Y ≤ inp.cursor.Y →
        inp.cursor.Y < (absRegion b.Region region).Max.Y →
        (Button.HandleInput inp b region).consumed = true) ∧
      (inp.cursor.Y = (absRegion b.Region region).Min.Y →
        (absRegion b.Region region).Min.Y < (absRegion b.Region region).Max.Y →
        (absRegion b.Region region).Min.X ≤ inp.cursor.X →
        inp.cursor.X < (absRegion b.Region region).Max.X →
        (Button.HandleInput inp b region).consumed = true) ∧
      (inp.cursor.X = (absRegion b.Region region).Max.X ∨
          inp.cursor.Y = (absRegion b.Region region).Max.Y →
        (Button.HandleInput inp b region).consumed = false) ∧
      (b.Region.Dx = 0 ∨ b.Region.Dy = 0 →
        (Button.HandleInput inp b region).consumed = false ∧
          (Button.HandleInput inp b region).self.pressed = false ∧
          (Button.HandleInput inp b region).events = [] ∧
          ∀ inputs : List Input,
            (Button.pollAll b region inputs).2 = [] ∧
              (inputs ≠ [] → (Button.pollAll b region inputs).1.pressed = false)) := by
  have hiff : (Button.HandleInput inp b region).consumed = true ↔
      ((absRegion b.Region region).Min.X ≤ inp.cursor.X ∧
        inp.cursor.X < (absRegion b.Region region).Max.X ∧
        (absRegion b.Region region).Min.Y ≤ inp.cursor.Y ∧
        inp.cursor.Y < (absRegion b.Region region).Max.Y) := by
    rw [Button.HandleInput_consumed]
    simp only [Point.In, Bool.and_eq_true, decide_eq_true_eq]
    tauto
  refine ⟨hiff, ?_, ?_, ?_, ?_⟩
  · intro h1 h2 h3 h4
    exact hiff.mpr ⟨by omega, by omega, h3, h4⟩
  · intro h1 h2 h3 h4
    exact hiff.mpr ⟨h3, h4, by omega, by omega⟩
  · intro h
    cases hc : (Button.HandleInput inp b region).consumed with
    | false => rfl
    | true =>
      have := hiff.mp hc
      omega
  · intro hzero
    have hout := absRegion_In_of_zero b.Region region inp.cursor hzero
    refine ⟨?_, ?_, Button.HandleInput_events_outside inp b region hout, ?_⟩
    · rw [Button.HandleInput_consumed, hout]
    · rw [Button.HandleInput_pressed, hout]
      rfl
    · intro inputs
      exact Button.pollAll_zero_size region inputs b hzero

/-- Witness for C15: the left, top and right edges of the sample button, and
a button of zero width. -/
theorem button_hit_test_half_open_witness :
    (sampleLeftEdge.cursor.X = (absRegion sampleButton.Region sampleRegion).Min.X ∧
        (Button.HandleInput sampleLeftEdge sampleButton sampleRegion).consumed = true) ∧
      (sampleTopEdge.cursor.Y = (absRegion sampleButton.Region sampleRegion).Min.Y ∧
        (Button.HandleInput sampleTopEdge sampleButton sampleRegion).consumed = true) ∧
      (sampleRightEdge.cursor.X = (absRegion sampleButton.Region sampleRegion).Max.X ∧
        (Button.HandleInput sampleRightEdge sampleButton sampleRegion).consumed = false) ∧
      ((sampleZeroButton.Region.Dx = 0 ∨ sampleZeroButton.Region.Dy = 0) ∧
        (Button.HandleInput sampleHover sampleZeroButton sampleRegion).self.pressed =
          false) :=
  ⟨⟨by decide,
      (button_hit_test_half_open sampleLeftEdge sampleButton sampleRegion).2.1
        (by decide) (by decide) (by decide) (by decide)⟩,
    ⟨by decide,
      (button_hit_test_half_open sampleTopEdge sampleButton sampleRegion).2.2.1
        (by decide) (by decide) (by decide) (by decide)⟩,
    ⟨by decide,
      (button_hit_test_half_open sampleRightEdge sampleButton sampleRegion).2.2.2.1
        (Or.inl (by decide))⟩,
    ⟨by decide,
      ((button_hit_test_half_open sampleHover sampleZeroButton sampleRegion).2.2.2.2
        (by decide)).2.1⟩⟩

/-- C16: button input handling depends only on the origin of the container
region.  For two container regions with the same `Min` corner, whatever their
`Max` corners, `absRegion` gives the same absolute region and
`Button.HandleInput` returns the same value, leaves the same button and invokes
the same callbacks; the hit test never consults the container's bounds, and the
far sample button, whose absolute region lies outside the sample container,
consumes input there. -/
theorem button_input_ignores_container_size (inp : Input) (b : Button)
    (region region' : Rectangle) :
    (region.Min = region'.Min →
        absRegion b.Region region = absRegion b.Region region' ∧
          Button.HandleInput inp b region = Button.HandleInput inp b region') ∧
      (inp.cursor.In (absRegion b.Region region) = true →
        (Button.HandleInput inp b region).consumed = true) ∧
      (sampleFarHover.cursor.In sampleRegion = false ∧
        (Button.HandleInput sampleFarHover sampleFarButton sampleRegion).consumed = true) := by
  refine ⟨?_, ?_, ?_⟩
  · intro hmin
    have habs := absRegion_same_origin b.Region region region' hmin
    refine ⟨habs, ?_⟩
    unfold Button.HandleInput
    rw [habs]
  · intro hin
    rw [Button.HandleInput_consumed, hin]
  · decide

/-- Witness for C16: the sample container region and the zero-area region with
the same origin. -/
theorem button_input_ignores_container_size_witness :
    sampleRegion.Min = sampleOriginRegion.Min ∧
      Button.HandleInput samplePress sampleButton sampleRegion =
        Button.HandleInput samplePress sampleButton sampleOriginRegion ∧
      (Button.HandleInput samplePress sampleButton sampleOriginRegion).consumed = true :=
  ⟨by decide,
    ((button_input_ignores_container_size samplePress sampleButton sampleRegion
      sampleOriginRegion).1 (by decide)).2,
    (button_input_ignores_container_size samplePress sampleButton sampleOriginRegion
      sampleRegion).2.1 (by decide)⟩

/-! ## Polling through a panel -/

theorem Panel.handleRefs_consumed {σ ι : Type} (poll : ι → Rectangle → σ → Poll σ)
    (region : Rectangle) (refs : List ι) :
    ∀ s : σ, (Panel.handleRefs poll refs region s).consumed = true := by
  induction refs with
  | nil =>
    intro s
    rfl
  | cons c cs ih =>
    intro s
    rw [Panel.handleRefs]
    by_cases h : (poll c region s).consumed = true
    · simp [h]
    · simp [h, ih]

theorem Panel.handleRefs_calls {σ ι : Type} (poll : ι → Rectangle → σ → Poll σ)
    (region : Rectangle) (refs : List ι) :
    ∀ s : σ,
      (∃ pre c post, refs = pre ++ c :: post ∧
          (Panel.handleRefs poll refs region s).calls =
            (pre ++ [c]).map (fun a => (a, region)) ∧
          replayCalls poll (Panel.handleRefs poll refs region s).calls s =
            ((Panel.handleRefs poll refs region s).state,
              (Panel.handleRefs poll refs region s).events,
              pre.map (fun _ => false) ++ [true])) ∨
        ((Panel.handleRefs poll refs region s).calls = refs.map (fun a => (a, region)) ∧
          replayCalls poll (Panel.handleRefs poll refs region s).calls s =
            ((Panel.handleRefs poll refs region s).state,
              (Panel.handleRefs poll refs region s).events,
              refs.map (fun _ => false))) := by
  induction refs with
  | nil =>
    intro s
    right
    exact ⟨rfl, rfl⟩
  | cons c cs ih =>
    intro s
    by_cases h : (poll c region s).consumed = true
    · left
      refine ⟨[], c, cs, rfl, ?_, ?_⟩
      · simp [Panel.handleRefs, h]
      · simp [Panel.handleRefs, h, replayCalls]
    · have hf : (poll c region s).consumed = false := by
        simpa using h
      rcases ih (poll c region s).self with ⟨pre, d, post, hrefs, hcalls, hreplay⟩ | ⟨hcalls, hreplay⟩
      · left
        refine ⟨c :: pre, d, post, by rw [hrefs]; rfl, ?_, ?_⟩
        · simp [Panel.handleRefs, hf, hcalls]
        · simp [Panel.handleRefs, hf, replayCalls, hreplay]
      · right
        constructor
        · simp [Panel.handleRefs, hf, hcalls]
        · simp [Panel.handleRefs, hf, replayCalls, hreplay]

theorem Panel.handleRefs_frame {σ ι α : Type} (poll : ι → Rectangle → σ → Poll σ)
    (view : σ → α) (region : Rectangle) (refs : List ι) :
    ∀ s : σ,
      (∀ e ∈ (Panel.handleRefs poll refs region s).calls, ∀ st : σ,
        view (poll e.1 e.2 st).self = view st) →
      view (Panel.handleRefs poll refs region s).state = view s := by
  induction refs with
  | nil =>
    intro s _
    rfl
  | cons c cs ih =>
    intro s hframe
    by_cases h : (poll c region s).consumed = true
    · have hc : (c, region) ∈ (Panel.handleRefs poll (c :: cs) region s).calls := by
        simp [Panel.handleRefs, h]
      have := hframe (c, region) hc s
      simpa [Panel.handleRefs, h] using this
    · have hf : (poll c region s).consumed = false := by
        simpa using h
      have hcalls : (Panel.handleRefs poll (c :: cs) region s).calls =
          (c, region) :: (Panel.handleRefs poll cs region (poll c region s).self).calls := by
        simp [Panel.handleRefs, hf]
      have hstate : (Panel.handleRefs poll (c :: cs) region s).state =
          (Panel.handleRefs poll cs region (poll c region s).self).state := by
        simp [Panel.handleRefs, hf]
      rw [hcalls] at hframe
      rw [hstate, ih (poll c region s).self
        (fun e he st => hframe e (List.mem_cons_of_mem _ he) st)]
      exact hframe (c, region) (List.mem_cons_self _ _) s

/-- The tree model of the loop is the loop over children held by reference on
a heap without aliasing: when the children `cs` are the objects at the
consecutive addresses from `k`, both give the same return value and callbacks,
the heap afterwards holds the children as `Panel.handleChildren` leaves them and
is unchanged below `k`, and the calls made are those of `Panel.inputCalls`. -/
theorem Panel.handleChildren_eq_handleRefs (inp : Input) (region : Rectangle)
    (cs : List Widget) :
    ∀ (k : Nat) (h : Heap), (∀ i, i < cs.length → cs[i]? = some (h (k + i))) →
      (Panel.handleRefs (Heap.pollAt inp) (List.range' k cs.length) region h).consumed =
          (Panel.handleChildren inp cs region).consumed ∧
        (Panel.handleRefs (Heap.pollAt inp) (List.range' k cs.length) region h).events =
          (Panel.handleChildren inp cs region).events ∧
        (∀ i, i < cs.length → (Panel.handleChildren inp cs region).self[i]? =
          some ((Panel.handleRefs (Heap.pollAt inp) (List.range' k cs.length) region
            h).state (k + i))) ∧
        (∀ a, a < k →
          (Panel.handleRefs (Heap.pollAt inp) (List.range' k cs.length) region h).state a =
            h a) ∧
        (∀ e ∈ (Panel.handleRefs (Heap.pollAt inp) (List.range' k cs.length) region
          h).calls, k ≤ e.1) ∧
        (Panel.handleRefs (Heap.pollAt inp) (List.range' k cs.length) region h).calls.map
          (fun e => (h e.1, e.2)) = Panel.inputCalls inp cs region := by
  induction cs with
  | nil =>
    intro k h _
    simp [Panel.handleRefs, Panel.handleChildren, Panel.inputCalls]
  | cons c cs ih =>
    intro k h hheap
    have hk : h k = c := by
      have := hheap 0 (Nat.succ_pos _)
      simpa using this.symm
    have htail : ∀ i, i < cs.length → cs[i]? = some (h (k + (i + 1))) := by
      intro i hi
      have := hheap (i + 1) (Nat.succ_lt_succ hi)
      simpa using this
    have hrange : List.range' k (c :: cs).length = k :: List.range' (k + 1) cs.length := rfl
    rw [hrange]
    by_cases hc : (Widget.HandleInput inp c region).consumed = true
    · have hp : (Heap.pollAt inp k region h).consumed = true := by
        simp [Heap.pollAt, hk, hc]
      simp only [Panel.handleRefs, hp, Panel.handleChildren, hc, Panel.inputCalls,
        if_true, List.map_cons, List.map_nil, List.mem_singleton, hk]
      refine ⟨trivial, ?_, ?_, ?_, ?_, trivial⟩
      · simp [Heap.pollAt, hk]
      · intro i hi
        cases i with
        | zero => simp [Heap.pollAt, hk]
        | succ i =>
          have hne : k + (i + 1) ≠ k := by omega
          simp only [List.getElem?_cons_succ, Heap.pollAt, Function.update_noteq hne]
          exact htail i (by simpa using hi)
      · intro a ha
        have hne : a ≠ k := by omega
        simp [Heap.pollAt, Function.update_noteq hne]
      · intro e he
        rw [he]
    · have hf : (Widget.HandleInput inp c region).consumed = false := by
        simpa using hc
      have hp : (Heap.pollAt inp k region h).consumed = false := by
        simp [Heap.pollAt, hk, hf]
      have hstep : ∀ i, i < cs.length →
          cs[i]? = some ((Heap.pollAt inp k region h).self (k + 1 + i)) := by
        intro i hi
        have hne : k + 1 + i ≠ k := by omega
        simp only [Heap.pollAt, Function.update_noteq hne]
        have hadd : k + 1 + i = k + (i + 1) := by omega
        rw [htail i hi, hadd]
      obtain ⟨h1, h2, h3, h4, h5, h6⟩ := ih (k + 1) (Heap.pollAt inp k region h).self hstep
      have hself : (Heap.pollAt inp k region h).self k = (Widget.HandleInput inp c region).self := by
        simp [Heap.pollAt, hk]
      have hev : (Heap.pollAt inp k region h).events = (Widget.HandleInput inp c region).events := by
        simp [Heap.pollAt, hk]
      simp only [Panel.handleRefs, hp, Panel.handleChildren, hf, Panel.inputCalls,
        Bool.false_eq_true, if_false, List.map_cons, hk]
      refine ⟨h1, by rw [hev, h2], ?_, ?_, ?_, ?_⟩
      · intro i hi
        cases i with
        | zero =>
          simp only [List.getElem?_cons_zero, Nat.add_zero]
          rw [h4 k (by omega), hself]
        | succ i =>
          simp only [List.getElem?_cons_succ]
          have hadd : k + 1 + i = k + (i + 1) := by omega
          rw [h3 i (by simpa using hi), hadd]
      · intro a ha
        rw [h4 a (by omega)]
        have hne : a ≠ k := by omega
        simp [Heap.pollAt, Function.update_noteq hne]
      · intro e he
        rcases List.mem_cons.mp he with rfl | he
        · exact le_refl _
        · have := h5 e he
          omega
      · congr 1
        rw [← h6]
        apply List.map_congr_left
        intro e he
        have hne : e.1 ≠ k := by
          have := h5 e he
          omega
        simp [Heap.pollAt, Function.update_noteq hne]

/-- C12, counterexample: with the same idle button in both slots of a panel and
a press inside it, the loop polls the first slot only, which returns true, and
the child in the second slot, not visited by the loop, is pressed afterwards
although it was idle before. -/
theorem panel_alias_changes_later_child :
    (Panel.handleRefs (Heap.pollAt samplePress) [0, 0] sampleRegion sampleAliasHeap).calls =
        [(0, sampleRegion)] ∧
      (sampleAliasHeap 0).pressedFlag = some false ∧
      ((Panel.handleRefs (Heap.pollAt samplePress) [0, 0] sampleRegion
        sampleAliasHeap).state 0).pressedFlag = some true := by
  decide

/-- C12, amended: `Panel.HandleInput` returns true; it polls its children in
insertion order with the region it was given and stops at the first child that
returns true.  Either the children split into those before a child `c`, `c`
itself and those after it, the calls made are one per child up to and
including `c`, every one before `c` returned false and `c` returned true; or
the calls made are one per child and every one returned false.  The state
and the callbacks afterwards are those of exactly these calls, in this order.
A part of the state that none of the polled children's `HandleInput` changes,
such as the state of a later child that is not the same object as a polled
one, is unchanged. -/
theorem panel_polls_until_consumed {σ ι α : Type} (poll : ι → Rectangle → σ → Poll σ)
    (view : σ → α) (refs : List ι) (region : Rectangle) (s : σ) :
    (Panel.handleRefs poll refs region s).consumed = true ∧
      ((∃ pre c post, refs = pre ++ c :: post ∧
          (Panel.handleRefs poll refs region s).calls =
            (pre ++ [c]).map (fun a => (a, region)) ∧
          replayCalls poll (Panel.handleRefs poll refs region s).calls s =
            ((Panel.handleRefs poll refs region s).state,
              (Panel.handleRefs poll refs region s).events,
              pre.map (fun _ => false) ++ [true])) ∨
        ((Panel.handleRefs poll refs region s).calls = refs.map (fun a => (a, region)) ∧
          replayCalls poll (Panel.handleRefs poll refs region s).calls s =
            ((Panel.handleRefs poll refs region s).state,
              (Panel.handleRefs poll refs region s).events,
              refs.map (fun _ => false)))) ∧
      ((∀ e ∈ (Panel.handleRefs poll refs region s).calls, ∀ st : σ,
          view (poll e.1 e.2 st).self = view st) →
        view (Panel.handleRefs poll refs region s).state = view s) :=
  ⟨Panel.handleRefs_consumed poll region refs s, Panel.handleRefs_calls poll region refs s,
    Panel.handleRefs_frame poll view region refs s⟩

/-- Witness for the amended C12: the label at address `2`, the sample button at
address `0` under the pointer and the pressed second sample button at address
`1`, in this order; the loop polls the label and the first button, and the
second button stays pressed. -/
theorem panel_polls_until_consumed_witness :
    (Panel.handleRefs (Heap.pollAt sampleDragToA) [2, 0, 1] sampleRegion sampleHeap).calls =
        [(2, sampleRegion), (0, sampleRegion)] ∧
      ((Panel.handleRefs (Heap.pollAt sampleDragToA) [2, 0, 1] sampleRegion
        sampleHeap).state 1).pressedFlag = (sampleHeap 1).pressedFlag :=
  have hcalls : (Panel.handleRefs (Heap.pollAt sampleDragToA) [2, 0, 1] sampleRegion
      sampleHeap).calls = [(2, sampleRegion), (0, sampleRegion)] := by decide
  ⟨hcalls,
    (panel_polls_until_consumed (Heap.pollAt sampleDragToA)
      (fun h : Heap => (h 1).pressedFlag) [2, 0, 1] sampleRegion sampleHeap).2.2
      (by
        intro e he st
        rw [hcalls] at he
        simp only [List.mem_cons, List.mem_singleton, List.not_mem_nil, or_false] at he
        rcases he with rfl | rfl <;> simp [Heap.pollAt, Function.update])⟩

/-- C14: driven through a panel, the cancel-on-leave guarantee fails.  The
sample panel holds two idle buttons with disjoint regions.  Under the drag
that presses inside the second button, moves inside the first while held, moves
back while held and releases inside the second, the second button is not
polled while the pointer is over the first, stays pressed, and its callback is
invoked at the release; polled on its own under the same drag it invokes no
callback. -/
theorem panel_drag_keeps_pressed :
    sampleButton.pressed = false ∧ sampleButtonB.pressed = false ∧
      (absRegion sampleButton.Region sampleRegion).Max.X ≤
        (absRegion sampleButtonB.Region sampleRegion).Min.X ∧
      samplePressB.cursor.In (absRegion sampleButtonB.Region sampleRegion) = true ∧
      sampleDragToA.cursor.In (absRegion sampleButtonB.Region sampleRegion) = false ∧
      sampleDragToA.cursor.In (absRegion sampleButton.Region sampleRegion) = true ∧
      sampleDragToB.cursor.In (absRegion sampleButtonB.Region sampleRegion) = true ∧
      sampleReleaseB.cursor.In (absRegion sampleButtonB.Region sampleRegion) = true ∧
      (Panel.inputCalls sampleDragToA
        (Panel.pollAll sampleTwoButtons sampleRegion [samplePressB]).1.Children
        sampleRegion).length = 1 ∧
      (Panel.pollAll sampleTwoButtons sampleRegion
        [samplePressB, sampleDragToA]).1.Children.map Widget.pressedFlag =
        [some false, some true] ∧
      (Panel.pollAll sampleTwoButtons sampleRegion sampleDragSequence).2 =
        [Event.click 8] ∧
      (Button.pollAll sampleButtonB sampleRegion sampleDragSequence).2 = [] := by
  decide

end ui
